import Mathlib

/-!
Verification of the basic-auth middleware (src/lib/index.js).

Strings are modelled as their UTF-8 byte sequences (`List Nat`), since the
source measures and compares strings byte-wise (Buffer.byteLength, Buffer
contents).  Node Buffers become `List Nat` as well.  JavaScript values that
may be `null` are modelled with `Option`; a thrown TypeError or a propagated
error object becomes the `Except`/`JsError` channel.
-/

namespace BasicAuth

/-- A string, seen as its UTF-8 byte sequence. -/
abbrev Bytes := List Nat

/-- Buffer.byteLength of a string: the number of UTF-8 bytes. -/
def byteLength (s : Bytes) : Nat := s.length

/-- Buffer.alloc(len, 0): a zero-filled buffer of the given length. -/
def bufAlloc (len : Nat) : Bytes := List.replicate len 0

/-- buffer.write(s): write the bytes of s into the buffer from offset 0.
At most buffer.length bytes of s are written; the tail of the buffer beyond
the written bytes keeps its previous content. -/
def bufWrite (buf : Bytes) (s : Bytes) : Bytes :=
  s.take buf.length ++ buf.drop s.length

/-- crypto.timingSafeEqual on two equal-length buffers: a constant-time
byte-wise equality check, modelled as OR-accumulating the XOR of each byte
pair and testing the accumulator against zero.  (The Node primitive throws
on unequal lengths; safeCompare only ever calls it on two buffers of the
same length L.) -/
def timingSafeEqual (a b : Bytes) : Bool :=
  ((a.zip b).foldl (fun acc p => acc ||| (p.1 ^^^ p.2)) 0) == 0

/-- The two buffers built by safeCompare: both are allocated with length
Buffer.byteLength(userInput) and then written from userInput resp. secret. -/
def safeCompareBuffers (userInput secret : Bytes) : Bytes × Bytes :=
  let userInputLength := byteLength userInput
  (bufWrite (bufAlloc userInputLength) userInput,
   bufWrite (bufAlloc userInputLength) secret)

/-- safeCompare(userInput, secret) from src/lib/index.js: build the two
buffers, run timingSafeEqual on them, and bitwise-AND the outcome with the
byte-length equality check; the double negation at the end turns the
resulting 0/1 number back into a boolean. -/
def safeCompare (userInput secret : Bytes) : Bool :=
  let userInputLength := byteLength userInput
  let secretLength := byteLength secret
  let bufs := safeCompareBuffers userInput secret
  ((timingSafeEqual bufs.1 bufs.2).toNat &&&
     (decide (userInputLength = secretLength)).toNat) != 0

/-- JavaScript runtime errors that matter here: the TypeError thrown by
Buffer.byteLength on a non-string argument, and an arbitrary error object
handed to a callback. -/
inductive JsError where
  | typeError
  | errObject (msg : String)
  deriving DecidableEq, Repr

/-- safeCompare as called on possibly-null JavaScript values: with a null
(non-string) argument, the very first Buffer.byteLength call throws a
TypeError; with two strings it computes safeCompare. -/
def safeCompareJs : Option Bytes → Option Bytes → Except JsError Bool
  | none, _ => .error .typeError
  | some _, none => .error .typeError
  | some a, some b => .ok (safeCompare a b)

/- ### The built-in static-table authorizer -/

/-- staticUsersAuthorizer from src/lib/index.js, over possibly-null
credentials: iterate the users table and OR-accumulate the bitwise AND of
the two safeCompare results; safeCompare throws on a null argument, which
aborts the loop with that error. -/
def staticUsersAuthorizer (users : List (Bytes × Bytes))
    (username password : Option Bytes) : Except JsError Nat :=
  go users 0
where
  go : List (Bytes × Bytes) → Nat → Except JsError Nat
  | [], authorized => .ok authorized
  | e :: rest, authorized =>
    match safeCompareJs username (some e.1), safeCompareJs password (some e.2) with
    | .ok cu, .ok cp => go rest (authorized ||| (cu.toNat &&& cp.toNat))
    | .error err, _ => .error err
    | .ok _, .error err => .error err

/-- The same accumulation on string credentials (the non-throwing case). -/
def staticUsersAccum (users : List (Bytes × Bytes)) (username password : Bytes) : Nat :=
  users.foldl
    (fun authorized e =>
      authorized ||| ((safeCompare username e.1).toNat &&& (safeCompare password e.2).toNat))
    0

/-- The same loop instrumented with the number of comparator invocations:
each table entry always costs exactly two safeCompare calls. -/
def staticUsersTraced (users : List (Bytes × Bytes)) (username password : Bytes) : Nat × Nat :=
  users.foldl
    (fun acc e =>
      (acc.1 ||| ((safeCompare username e.1).toNat &&& (safeCompare password e.2).toNat),
       acc.2 + 2))
    (0, 0)

/- ### The middleware engine -/

/-- An incoming request, reduced to what the middleware consumes: the
result of the external basic-auth header parser (none on a missing or
malformed Authorization header) plus opaque per-request context that
request-aware collaborators may inspect. -/
structure Req where
  authHeader : Option (Bytes × Bytes)
  ctx : String := ""
  deriving Repr

/-- The value returned by unauthorizedResponse(req): a string is sent as a
plain-text body, anything else as a JSON body. -/
inductive RespVal where
  | str (s : String)
  | obj (fields : List (String × String))
  deriving DecidableEq, Repr

/-- The body actually sent with a 401: text via res.send for strings, JSON
via res.json otherwise. -/
inductive Body where
  | text (s : String)
  | json (v : RespVal)
  deriving DecidableEq, Repr

/-- The synthesized denial response: status, optional WWW-Authenticate
header, body. -/
structure DenyResponse where
  status : Nat
  wwwAuthenticate : Option String
  body : Body
  deriving DecidableEq, Repr

/-- The authorizer selected at configuration time.  static is the built-in
table policy used when no custom authorizer is configured (the source then
calls it synchronously without the request).  Custom authorizers receive
the request exactly when passRequest is set; an async authorizer is
modelled by the (error, approved) pair it eventually hands to the
completion callback (the contract being exactly-once resolution).  A sync
authorizer that throws is an Except error. -/
inductive AuthorizerCfg where
  | static (users : List (Bytes × Bytes))
  | sync (passRequest : Bool) (f : Option Req → Option Bytes → Option Bytes → Except JsError Bool)
  | async (passRequest : Bool) (f : Option Req → Option Bytes → Option Bytes → Option JsError × Bool)

/-- The immutable configuration built once by buildMiddleware, with the
option post-processing (ensureFunction, boolean coercion) already applied. -/
structure EngineCfg where
  challenge : Bool
  authorizer : AuthorizerCfg
  allowEmptyCredentials : Bool
  getResponseBody : Req → RespVal
  realm : Req → Option String

/-- Everything observable about one run of the middleware on one request. -/
inductive Outcome where
  | allowed
  | denied (r : DenyResponse)
  | fatal (e : JsError)
  deriving DecidableEq, Repr

structure RunResult where
  outcome : Outcome
  nextCalls : Nat
  reqAuth : Option (Option Bytes × Option Bytes)
  authorizerCalledWith : Option (Option Bytes × Option Bytes)

/-- The challenge header value: Basic realm="name" when realm(req) yields a
truthy (non-empty) string, plain Basic otherwise. -/
def challengeValue (realmName : Option String) : String :=
  match realmName with
  | some r => if r = "" then "Basic" else "Basic realm=\"" ++ r ++ "\""
  | none => "Basic"

/-- The unauthorized() helper: set the WWW-Authenticate header iff the
challenge option is on, then send a 401 with the configured body (text for
strings, JSON otherwise). -/
def unauthorized (cfg : EngineCfg) (req : Req) : DenyResponse :=
  { status := 401
    wwwAuthenticate :=
      if cfg.challenge then some (challengeValue (cfg.realm req)) else none
    body :=
      match cfg.getResponseBody req with
      | .str s => .text s
      | v => .json v }

/-- One authorizer invocation, dispatched on the shape selected at
configuration time, normalised to throw-or-verdict.  For the static table
the verdict is the truthiness of the accumulated number; for a sync custom
authorizer it is the returned boolean (a thrown error propagates); for an
async one, assert.ifError turns a non-null callback error into a throw and
the verdict is the approved flag. -/
def evalAuthorizer (cfg : EngineCfg) (req : Req)
    (name pass : Option Bytes) : Except JsError Bool :=
  match cfg.authorizer with
  | .static users =>
    match staticUsersAuthorizer users name pass with
    | .error e => .error e
    | .ok n => .ok (n != 0)
  | .sync pr f => f (if pr then some req else none) name pass
  | .async pr f =>
    match f (if pr then some req else none) name pass with
    | (some e, _) => .error e
    | (none, approved) => .ok approved

/-- authMiddleware from src/lib/index.js: parse the header, short-circuit
to unauthorized() when credentials are absent and allowEmptyCredentials is
off, attach the (possibly null) credentials to req.auth, then run the
authorizer: a throw is fatal, approval calls next() exactly once, refusal
sends unauthorized(). -/
def authMiddleware (cfg : EngineCfg) (req : Req) : RunResult :=
  let name : Option Bytes := req.authHeader.map Prod.fst
  let pass : Option Bytes := req.authHeader.map Prod.snd
  if req.authHeader = none ∧ cfg.allowEmptyCredentials = false then
    { outcome := .denied (unauthorized cfg req), nextCalls := 0,
      reqAuth := none, authorizerCalledWith := none }
  else
    match evalAuthorizer cfg req name pass with
    | .error e =>
      { outcome := .fatal e, nextCalls := 0,
        reqAuth := some (name, pass), authorizerCalledWith := some (name, pass) }
    | .ok true =>
      { outcome := .allowed, nextCalls := 1,
        reqAuth := some (name, pass), authorizerCalledWith := some (name, pass) }
    | .ok false =>
      { outcome := .denied (unauthorized cfg req), nextCalls := 0,
        reqAuth := some (name, pass), authorizerCalledWith := some (name, pass) }

/-- What it means for the configured authorizer to approve the given
credentials for the given request without throwing. -/
def authorizerApproves (cfg : EngineCfg) (req : Req)
    (name pass : Option Bytes) : Prop :=
  evalAuthorizer cfg req name pass = .ok true

/- ### Construction-time validation (buildMiddleware asserts) -/

/-- The shapes a JavaScript option value can take, as far as typeof and
truthiness are concerned. -/
inductive JsValue where
  | undef
  | null
  | bool (b : Bool)
  | num (n : Int)
  | str (s : String)
  | obj
  | fn
  deriving DecidableEq, Repr

/-- The typeof operator on those shapes (typeof null is "object"). -/
def typeofJs : JsValue → String
  | .undef => "undefined"
  | .null => "object"
  | .bool _ => "boolean"
  | .num _ => "number"
  | .str _ => "string"
  | .obj => "object"
  | .fn => "function"

/-- JavaScript truthiness of those shapes. -/
def truthyJs : JsValue → Bool
  | .undef => false
  | .null => false
  | .bool b => b
  | .num n => n != 0
  | .str s => s != ""
  | .obj => true
  | .fn => true

/-- The raw users and authorizer fields of the options object handed to
buildMiddleware. -/
structure RawOptions where
  users : JsValue
  authorizer : JsValue
  deriving DecidableEq, Repr

/-- The construction-time validation in buildMiddleware: a falsy users
option defaults to the empty object and a falsy authorizer option to the
built-in static function, then the two assert calls run in order; an
assertion failure is the error value. -/
def buildMiddlewareCheck (options : RawOptions) : Except String Unit :=
  let users := if truthyJs options.users then options.users else .obj
  let authorizer := if truthyJs options.authorizer then options.authorizer else .fn
  if typeofJs users = "object" then
    if typeofJs authorizer = "function" then .ok ()
    else .error "Expected a function for the basic auth authorizer"
  else .error "Expected an object for the basic auth users"

/- ### Concrete fixtures used by the witnesses -/

/-- A request with no (or an unparsable) Authorization header. -/
def reqMissing : Req := { authHeader := none }

/-- A request whose header parsed to username [65] and password [66]. -/
def reqWithCreds : Req := { authHeader := some ([65], [66]) }

/-- A synchronous custom authorizer approving exactly null credentials. -/
def emptyCredsFn : Option Req → Option Bytes → Option Bytes → Except JsError Bool :=
  fun _ n p => .ok (n.isNone && p.isNone)

def cfgEmptySync : EngineCfg :=
  { challenge := false
    authorizer := .sync false emptyCredsFn
    allowEmptyCredentials := true
    getResponseBody := fun _ => .str ""
    realm := fun _ => none }

/-- An asynchronous authorizer that always calls back with an error. -/
def asyncErrFn : Option Req → Option Bytes → Option Bytes → Option JsError × Bool :=
  fun _ _ _ => (some (.errObject "boom"), false)

def cfgAsyncErr : EngineCfg :=
  { challenge := false
    authorizer := .async false asyncErrFn
    allowEmptyCredentials := false
    getResponseBody := fun _ => .str ""
    realm := fun _ => none }

/-- Challenge on, realm "test", empty users table, a static text body. -/
def cfgChallenge : EngineCfg :=
  { challenge := true
    authorizer := .static []
    allowEmptyCredentials := false
    getResponseBody := fun _ => .str "Haaaaaha"
    realm := fun _ => some "test" }

/-- Default static policy over a non-empty table, empty credentials allowed. -/
def cfgStaticNull : EngineCfg :=
  { challenge := false
    authorizer := .static [([65], [66])]
    allowEmptyCredentials := true
    getResponseBody := fun _ => .str ""
    realm := fun _ => none }

/- ### Helper lemmas about the buffers and the fold -/

theorem bufWrite_alloc_length (L : Nat) (s : Bytes) :
    (bufWrite (bufAlloc L) s).length = L := by
  simp only [bufWrite, bufAlloc, List.length_append, List.length_take,
    List.length_drop, List.length_replicate]
  omega

theorem bufWrite_alloc_self (s : Bytes) :
    bufWrite (bufAlloc s.length) s = s := by
  simp [bufWrite, bufAlloc]

theorem bufWrite_alloc_of_length_eq {L : Nat} {s : Bytes} (h : s.length = L) :
    bufWrite (bufAlloc L) s = s := by
  subst h; exact bufWrite_alloc_self s

theorem nat_or_eq_zero_iff (m n : Nat) : m ||| n = 0 ↔ m = 0 ∧ n = 0 := by
  constructor
  · intro h
    constructor
    · apply Nat.eq_of_testBit_eq
      intro i
      have hb := congrArg (fun x => Nat.testBit x i) h
      simp only [Nat.testBit_or, Nat.zero_testBit, Bool.or_eq_false_iff] at hb
      simp [hb.1]
    · apply Nat.eq_of_testBit_eq
      intro i
      have hb := congrArg (fun x => Nat.testBit x i) h
      simp only [Nat.testBit_or, Nat.zero_testBit, Bool.or_eq_false_iff] at hb
      simp [hb.2]
  · rintro ⟨rfl, rfl⟩; rfl

/-- OR-accumulating a function over a list yields zero exactly when the
initial accumulator is zero and the function is zero on every element. -/
theorem foldl_or_eq_zero_iff (f : α → Nat) (l : List α) (c : Nat) :
    l.foldl (fun acc e => acc ||| f e) c = 0 ↔ c = 0 ∧ ∀ e ∈ l, f e = 0 := by
  induction l generalizing c with
  | nil => simp
  | cons x xs ih =>
    simp only [List.foldl_cons, ih, nat_or_eq_zero_iff, List.mem_cons]
    constructor
    · rintro ⟨⟨hc, hx⟩, hall⟩
      exact ⟨hc, fun e he => he.elim (fun hh => hh ▸ hx) (hall e)⟩
    · rintro ⟨hc, hall⟩
      exact ⟨⟨hc, hall x (Or.inl rfl)⟩, fun e he => hall e (Or.inr he)⟩

theorem mem_zip_self {a : Bytes} {p : Nat × Nat} (hp : p ∈ a.zip a) :
    p.1 = p.2 := by
  induction a with
  | nil => simp at hp
  | cons x xs ih =>
    rw [List.zip_cons_cons, List.mem_cons] at hp
    rcases hp with h | h
    · rw [h]
    · exact ih h

theorem timingSafeEqual_iff {a b : Bytes} (h : a.length = b.length) :
    timingSafeEqual a b = true ↔ a = b := by
  have hfold := foldl_or_eq_zero_iff (fun p : Nat × Nat => p.1 ^^^ p.2) (a.zip b) 0
  simp only [timingSafeEqual, beq_iff_eq]
  rw [hfold]
  simp only [true_and]
  constructor
  · intro hall
    clear hfold
    induction a generalizing b with
    | nil =>
      cases b with
      | nil => rfl
      | cons y ys => simp at h
    | cons x xs ih =>
      cases b with
      | nil => simp at h
      | cons y ys =>
        have hx : x ^^^ y = 0 := hall (x, y) (by simp)
        have hxy : x = y := Nat.xor_eq_zero.mp hx
        have hrest : xs = ys := by
          apply ih (by simpa using h)
          intro p hp
          exact hall p (by simp [List.zip_cons_cons, hp])
        rw [hxy, hrest]
  · rintro rfl p hp
    exact Nat.xor_eq_zero.mpr (mem_zip_self hp)

/-- The boolean-AND reading of the bitwise AND of two 0/1 coercions. -/
theorem toNat_and_toNat_ne_zero (x y : Bool) :
    (x.toNat &&& y.toNat ≠ 0) ↔ (x = true ∧ y = true) := by
  cases x <;> cases y <;> simp

/-- Shared characterisation of safeCompare: it decides byte-equality. -/
theorem safeCompare_iff (a b : Bytes) : safeCompare a b = true ↔ a = b := by
  by_cases h : byteLength a = byteLength b
  · have hb1 : (safeCompareBuffers a b).1 = a := bufWrite_alloc_self a
    have hb2 : (safeCompareBuffers a b).2 = b := bufWrite_alloc_of_length_eq h.symm
    have htse := timingSafeEqual_iff (a := a) (b := b) h
    simp only [safeCompare, bne_iff_ne, ne_eq, toNat_and_toNat_ne_zero, hb1, hb2,
      decide_eq_true_eq]
    constructor
    · rintro ⟨ht, -⟩
      exact htse.mp ht
    · rintro rfl
      exact ⟨htse.mpr rfl, rfl⟩
  · have hne : a ≠ b := fun he => h (by rw [he])
    simp only [safeCompare, bne_iff_ne, ne_eq, toNat_and_toNat_ne_zero,
      decide_eq_true_eq]
    simp [h, hne]

/-- Unfolded form of safeCompare: true exactly when the buffer check
succeeds and the two byte lengths agree. -/
theorem safeCompare_unfold (a b : Bytes) :
    safeCompare a b = true ↔
      (timingSafeEqual (safeCompareBuffers a b).1 (safeCompareBuffers a b).2 = true ∧
       byteLength a = byteLength b) := by
  simp only [safeCompare, bne_iff_ne, ne_eq, toNat_and_toNat_ne_zero,
    decide_eq_true_eq]

/-- C1: safeCompare(a, b) is true iff a and b are byte-for-byte equal; in
particular safeCompare(s, s) is true, safeCompare(s, s ++ "x") is false,
and the result is true exactly when the byte-wise buffer check succeeds and
the byte lengths of a and b are equal. -/
theorem safeCompare_true_iff_byte_equal :
    (∀ a b : Bytes, safeCompare a b = true ↔ a = b) ∧
    (∀ s : Bytes, safeCompare s s = true) ∧
    (∀ (s : Bytes) (x : Nat), safeCompare s (s ++ [x]) = false) ∧
    (∀ a b : Bytes, safeCompare a b = true ↔
      (timingSafeEqual (safeCompareBuffers a b).1 (safeCompareBuffers a b).2 = true ∧
       byteLength a = byteLength b)) := by
  refine ⟨safeCompare_iff, fun s => (safeCompare_iff s s).mpr rfl, ?_, safeCompare_unfold⟩
  intro s x
  have hne : s ≠ s ++ [x] := by
    intro he
    have := congrArg List.length he
    simp at this
  rcases hv : safeCompare s (s ++ [x]) with _ | _
  · rfl
  · exact absurd ((safeCompare_iff s (s ++ [x])).mp hv) hne

/-- C3: both buffers are allocated with the byte length of the first
argument; the second argument is truncated to that length or zero-padded up
to it, so buffer shapes depend only on the byte lengths of the inputs. -/
theorem safeCompare_buffers_sized_by_first_argument :
    (∀ a b : Bytes, (safeCompareBuffers a b).1.length = byteLength a) ∧
    (∀ a b : Bytes, (safeCompareBuffers a b).2.length = byteLength a) ∧
    (∀ a b : Bytes, (safeCompareBuffers a b).2 =
      b.take (byteLength a) ++ List.replicate (byteLength a - byteLength b) 0) ∧
    (∀ a b : Bytes, (safeCompareBuffers a b).1 = a) := by
  refine ⟨fun a b => bufWrite_alloc_length _ _, fun a b => bufWrite_alloc_length _ _,
    fun a b => ?_, fun a b => bufWrite_alloc_self a⟩
  simp only [safeCompareBuffers, bufWrite, bufAlloc, byteLength,
    List.length_replicate, List.drop_replicate]

theorem staticUsersAuthorizer_some (users : List (Bytes × Bytes)) (u p : Bytes) :
    staticUsersAuthorizer users (some u) (some p) = .ok (staticUsersAccum users u p) := by
  suffices h : ∀ c : Nat,
      staticUsersAuthorizer.go (some u) (some p) users c =
        .ok (users.foldl
          (fun authorized e =>
            authorized ||| ((safeCompare u e.1).toNat &&& (safeCompare p e.2).toNat)) c) by
    exact h 0
  induction users with
  | nil => intro c; rfl
  | cons e rest ih =>
    intro c
    simp only [staticUsersAuthorizer.go, safeCompareJs, List.foldl_cons]
    exact ih _

theorem staticUsersTraced_spec (users : List (Bytes × Bytes)) (u p : Bytes) :
    staticUsersTraced users u p = (staticUsersAccum users u p, 2 * users.length) := by
  suffices h : ∀ (c1 c2 : Nat),
      users.foldl
        (fun acc e =>
          (acc.1 ||| ((safeCompare u e.1).toNat &&& (safeCompare p e.2).toNat),
           acc.2 + 2))
        (c1, c2) =
      (users.foldl
        (fun authorized e =>
          authorized ||| ((safeCompare u e.1).toNat &&& (safeCompare p e.2).toNat)) c1,
       c2 + 2 * users.length) by
    simpa using h 0 0
  induction users with
  | nil => intro c1 c2; simp
  | cons e rest ih =>
    intro c1 c2
    simp only [List.foldl_cons, List.length_cons, ih]
    have : c2 + 2 + 2 * rest.length = c2 + 2 * (rest.length + 1) := by ring
    rw [this]

theorem staticUsersAccum_ne_zero_iff (users : List (Bytes × Bytes)) (u p : Bytes) :
    staticUsersAccum users u p ≠ 0 ↔ ∃ e ∈ users, e.1 = u ∧ e.2 = p := by
  have h := foldl_or_eq_zero_iff
    (fun e : Bytes × Bytes => (safeCompare u e.1).toNat &&& (safeCompare p e.2).toNat)
    users 0
  simp only [staticUsersAccum]
  rw [ne_eq, h]
  simp only [true_and, not_forall]
  constructor
  · rintro ⟨e, he, hne⟩
    have := (toNat_and_toNat_ne_zero _ _).mp hne
    exact ⟨e, he, ((safeCompare_iff u e.1).mp this.1).symm,
      ((safeCompare_iff p e.2).mp this.2).symm⟩
  · rintro ⟨e, he, h1, h2⟩
    refine ⟨e, he, (toNat_and_toNat_ne_zero _ _).mpr ?_⟩
    exact ⟨(safeCompare_iff u e.1).mpr h1.symm, (safeCompare_iff p e.2).mpr h2.symm⟩

/-- C2: the static-table policy authorizes iff some entry matches both the
username and password exactly; it evaluates the comparator twice per entry
(no early exit) and OR-accumulates the per-entry bitwise AND; an empty
table denies everything. -/
theorem staticUsersAuthorizer_correct :
    (∀ (users : List (Bytes × Bytes)) (u p : Bytes),
      staticUsersAuthorizer users (some u) (some p) = .ok (staticUsersAccum users u p) ∧
      (staticUsersAccum users u p ≠ 0 ↔ ∃ e ∈ users, e.1 = u ∧ e.2 = p)) ∧
    (∀ (users : List (Bytes × Bytes)) (u p : Bytes),
      staticUsersTraced users u p = (staticUsersAccum users u p, 2 * users.length)) ∧
    (∀ u p : Bytes, staticUsersAuthorizer [] (some u) (some p) = .ok 0) := by
  exact ⟨fun users u p => ⟨staticUsersAuthorizer_some users u p,
      staticUsersAccum_ne_zero_iff users u p⟩,
    staticUsersTraced_spec,
    fun u p => rfl⟩

/- ### Case rewrites for one middleware run -/

theorem authMiddleware_short {cfg : EngineCfg} {req : Req}
    (h1 : req.authHeader = none) (h2 : cfg.allowEmptyCredentials = false) :
    authMiddleware cfg req =
      { outcome := .denied (unauthorized cfg req), nextCalls := 0,
        reqAuth := none, authorizerCalledWith := none } := by
  simp [authMiddleware, h1, h2]

theorem authMiddleware_fatal {cfg : EngineCfg} {req : Req} {e : JsError}
    (h : ¬(req.authHeader = none ∧ cfg.allowEmptyCredentials = false))
    (he : evalAuthorizer cfg req (req.authHeader.map Prod.fst)
        (req.authHeader.map Prod.snd) = .error e) :
    authMiddleware cfg req =
      { outcome := .fatal e, nextCalls := 0,
        reqAuth := some (req.authHeader.map Prod.fst, req.authHeader.map Prod.snd),
        authorizerCalledWith :=
          some (req.authHeader.map Prod.fst, req.authHeader.map Prod.snd) } := by
  simp [authMiddleware, h, he]

theorem authMiddleware_allowed {cfg : EngineCfg} {req : Req}
    (h : ¬(req.authHeader = none ∧ cfg.allowEmptyCredentials = false))
    (he : evalAuthorizer cfg req (req.authHeader.map Prod.fst)
        (req.authHeader.map Prod.snd) = .ok true) :
    authMiddleware cfg req =
      { outcome := .allowed, nextCalls := 1,
        reqAuth := some (req.authHeader.map Prod.fst, req.authHeader.map Prod.snd),
        authorizerCalledWith :=
          some (req.authHeader.map Prod.fst, req.authHeader.map Prod.snd) } := by
  simp [authMiddleware, h, he]

theorem authMiddleware_refused {cfg : EngineCfg} {req : Req}
    (h : ¬(req.authHeader = none ∧ cfg.allowEmptyCredentials = false))
    (he : evalAuthorizer cfg req (req.authHeader.map Prod.fst)
        (req.authHeader.map Prod.snd) = .ok false) :
    authMiddleware cfg req =
      { outcome := .denied (unauthorized cfg req), nextCalls := 0,
        reqAuth := some (req.authHeader.map Prod.fst, req.authHeader.map Prod.snd),
        authorizerCalledWith :=
          some (req.authHeader.map Prod.fst, req.authHeader.map Prod.snd) } := by
  simp [authMiddleware, h, he]

/-- Every denial carries the response synthesized by unauthorized(). -/
theorem denied_eq_unauthorized {cfg : EngineCfg} {req : Req} {r : DenyResponse}
    (h : (authMiddleware cfg req).outcome = .denied r) :
    r = unauthorized cfg req := by
  by_cases hc : req.authHeader = none ∧ cfg.allowEmptyCredentials = false
  · rw [authMiddleware_short hc.1 hc.2] at h
    cases h
    rfl
  · rcases he : evalAuthorizer cfg req (req.authHeader.map Prod.fst)
        (req.authHeader.map Prod.snd) with e | b
    · rw [authMiddleware_fatal hc he] at h
      cases h
    · cases b
      · rw [authMiddleware_refused hc he] at h
        cases h
        rfl
      · rw [authMiddleware_allowed hc he] at h
        cases h

/-- C4: with no parsed credentials, allowEmptyCredentials off denies with a
401 and never invokes the authorizer; allowEmptyCredentials on attaches
null/null credentials, hands them to the authorizer, and allows exactly
when it approves. -/
theorem missing_header_behavior (cfg : EngineCfg) (req : Req)
    (h : req.authHeader = none) :
    (cfg.allowEmptyCredentials = false →
       (authMiddleware cfg req).outcome = .denied (unauthorized cfg req) ∧
       (unauthorized cfg req).status = 401 ∧
       (authMiddleware cfg req).authorizerCalledWith = none) ∧
    (cfg.allowEmptyCredentials = true →
       (authMiddleware cfg req).reqAuth = some (none, none) ∧
       (authMiddleware cfg req).authorizerCalledWith = some (none, none) ∧
       ((authMiddleware cfg req).outcome = .allowed ↔
          authorizerApproves cfg req none none)) := by
  have hname : req.authHeader.map Prod.fst = none := by rw [h]; rfl
  have hpass : req.authHeader.map Prod.snd = none := by rw [h]; rfl
  constructor
  · intro hf
    rw [authMiddleware_short h hf]
    exact ⟨rfl, rfl, rfl⟩
  · intro ht
    have hc : ¬(req.authHeader = none ∧ cfg.allowEmptyCredentials = false) := by
      simp [ht]
    rcases he : evalAuthorizer cfg req (req.authHeader.map Prod.fst)
        (req.authHeader.map Prod.snd) with e | b
    · rw [authMiddleware_fatal hc he]
      rw [hname, hpass] at he
      refine ⟨by rw [hname, hpass], by rw [hname, hpass], ?_⟩
      constructor
      · intro hco; cases hco
      · intro hap
        rw [authorizerApproves, he] at hap
        cases hap
    · cases b
      · rw [authMiddleware_refused hc he]
        rw [hname, hpass] at he
        refine ⟨by rw [hname, hpass], by rw [hname, hpass], ?_⟩
        constructor
        · intro hco; cases hco
        · intro hap
          rw [authorizerApproves, he] at hap
          cases hap
      · rw [authMiddleware_allowed hc he]
        rw [hname, hpass] at he
        refine ⟨by rw [hname, hpass], by rw [hname, hpass], ?_⟩
        exact ⟨fun _ => he, fun _ => rfl⟩

/-- C5: a non-null error handed to the asynchronous completion callback is
an unrecoverable failure, never a 401 denial. -/
theorem async_error_is_fatal (cfg : EngineCfg) (req : Req) (pr : Bool)
    (f : Option Req → Option Bytes → Option Bytes → Option JsError × Bool)
    (e : JsError) (approved : Bool)
    (hauth : cfg.authorizer = .async pr f)
    (hcred : ¬(req.authHeader = none ∧ cfg.allowEmptyCredentials = false))
    (hcall : f (if pr then some req else none) (req.authHeader.map Prod.fst)
        (req.authHeader.map Prod.snd) = (some e, approved)) :
    (authMiddleware cfg req).outcome = .fatal e ∧
    ∀ r, (authMiddleware cfg req).outcome ≠ .denied r := by
  have he : evalAuthorizer cfg req (req.authHeader.map Prod.fst)
      (req.authHeader.map Prod.snd) = .error e := by
    simp only [evalAuthorizer, hauth, hcall]
  constructor
  · rw [authMiddleware_fatal hcred he]
  · intro r hcon
    rw [authMiddleware_fatal hcred he] at hcon
    cases hcon

/-- C6: the denial response carries a WWW-Authenticate header iff the
challenge option is on; its value is Basic realm="value" verbatim for a
non-empty realm(request), and plain Basic for a missing or empty one. -/
theorem denial_challenge_header (cfg : EngineCfg) (req : Req) (r : DenyResponse)
    (h : (authMiddleware cfg req).outcome = .denied r) :
    (r.wwwAuthenticate ≠ none ↔ cfg.challenge = true) ∧
    (cfg.challenge = true →
       (∀ v, cfg.realm req = some v → v ≠ "" →
          r.wwwAuthenticate = some ("Basic realm=\"" ++ v ++ "\"")) ∧
       (cfg.realm req = none ∨ cfg.realm req = some "" →
          r.wwwAuthenticate = some "Basic")) ∧
    (cfg.challenge = false → r.wwwAuthenticate = none) := by
  have hr := denied_eq_unauthorized h
  subst hr
  rcases hch : cfg.challenge with _ | _
  · refine ⟨by simp [unauthorized, hch], by simp [hch], fun _ => by simp [unauthorized, hch]⟩
  · refine ⟨by simp [unauthorized, hch], fun _ => ⟨?_, ?_⟩, by simp [hch]⟩
    · intro v hv hne
      simp [unauthorized, hch, challengeValue, hv, hne]
    · rintro (hv | hv) <;> simp [unauthorized, hch, challengeValue, hv]

/-- C7: a denial has status 401 and its body is unauthorizedResponse(req),
sent verbatim as text when it is a string and as JSON otherwise. -/
theorem denial_body (cfg : EngineCfg) (req : Req) (r : DenyResponse)
    (h : (authMiddleware cfg req).outcome = .denied r) :
    r.status = 401 ∧
    (∀ s, cfg.getResponseBody req = .str s → r.body = .text s) ∧
    (∀ fields, cfg.getResponseBody req = .obj fields →
       r.body = .json (.obj fields)) := by
  have hr := denied_eq_unauthorized h
  subst hr
  refine ⟨rfl, ?_, ?_⟩
  · intro s hs
    simp [unauthorized, hs]
  · intro fields hs
    simp [unauthorized, hs]

/-- C8: the pipeline continuation runs exactly once on Allow and never
otherwise, deny and fatal outcomes included. -/
theorem next_called_once_iff_allowed (cfg : EngineCfg) (req : Req) :
    ((authMiddleware cfg req).outcome = .allowed ↔
       (authMiddleware cfg req).nextCalls = 1) ∧
    ((authMiddleware cfg req).outcome ≠ .allowed ↔
       (authMiddleware cfg req).nextCalls = 0) := by
  by_cases hc : req.authHeader = none ∧ cfg.allowEmptyCredentials = false
  · rw [authMiddleware_short hc.1 hc.2]
    refine ⟨⟨fun hco => (nomatch hco), fun hn => (nomatch hn)⟩, ?_⟩
    exact ⟨fun _ => rfl, fun _ hco => (nomatch hco)⟩
  · rcases he : evalAuthorizer cfg req (req.authHeader.map Prod.fst)
        (req.authHeader.map Prod.snd) with e | b
    · rw [authMiddleware_fatal hc he]
      refine ⟨⟨fun hco => (nomatch hco), fun hn => (nomatch hn)⟩, ?_⟩
      exact ⟨fun _ => rfl, fun _ hco => (nomatch hco)⟩
    · cases b
      · rw [authMiddleware_refused hc he]
        refine ⟨⟨fun hco => (nomatch hco), fun hn => (nomatch hn)⟩, ?_⟩
        exact ⟨fun _ => rfl, fun _ hco => (nomatch hco)⟩
      · rw [authMiddleware_allowed hc he]
        refine ⟨⟨fun _ => rfl, fun _ => rfl⟩, ?_⟩
        exact ⟨fun hco => absurd rfl hco, fun hn => (nomatch hn)⟩

/-- C10: safeCompare on a null (non-string) input throws a TypeError, so
the default static policy over a non-empty table combined with
allowEmptyCredentials and a missing header makes the middleware throw at
request time instead of denying with a 401. -/
theorem null_credentials_fatal (cfg : EngineCfg) (req : Req)
    (users : List (Bytes × Bytes)) (e0 : Bytes × Bytes) (rest : List (Bytes × Bytes))
    (husers : users = e0 :: rest)
    (hauth : cfg.authorizer = .static users)
    (hallow : cfg.allowEmptyCredentials = true)
    (hh : req.authHeader = none) :
    (∀ x, safeCompareJs none x = .error .typeError) ∧
    (∀ y : Bytes, safeCompareJs (some y) none = .error .typeError) ∧
    (authMiddleware cfg req).outcome = .fatal .typeError ∧
    (∀ r, (authMiddleware cfg req).outcome ≠ .denied r) := by
  have hgo : staticUsersAuthorizer users none none = .error .typeError := by
    subst husers; rfl
  have hcred : ¬(req.authHeader = none ∧ cfg.allowEmptyCredentials = false) := by
    simp [hallow]
  have hname : req.authHeader.map Prod.fst = none := by rw [hh]; rfl
  have hpass : req.authHeader.map Prod.snd = none := by rw [hh]; rfl
  have he : evalAuthorizer cfg req (req.authHeader.map Prod.fst)
      (req.authHeader.map Prod.snd) = .error .typeError := by
    simp only [evalAuthorizer, hauth, hname, hpass, hgo]
  refine ⟨fun x => rfl, fun y => rfl, ?_, ?_⟩
  · rw [authMiddleware_fatal hcred he]
  · intro r hcon
    rw [authMiddleware_fatal hcred he] at hcon
    cases hcon

/-- C9 counterexample: a users option that is not of object type on which
construction nevertheless succeeds, because a falsy option is replaced by
its default before the assertion runs. -/
theorem build_check_accepts_falsy_nonobject_users :
    typeofJs (JsValue.bool false) ≠ "object" ∧
    buildMiddlewareCheck { users := JsValue.bool false, authorizer := JsValue.undef } =
      .ok () :=
  ⟨by decide, rfl⟩

/-- C9 amended: a truthy users option that is not of object type, or a
truthy authorizer option that is not callable, makes buildMiddleware fail
with an assertion error at construction time, before any request is
processed; falsy options are replaced by their defaults and pass. -/
theorem build_check_rejects_bad_options (o : RawOptions)
    (h : (truthyJs o.users = true ∧ typeofJs o.users ≠ "object") ∨
         (truthyJs o.authorizer = true ∧ typeofJs o.authorizer ≠ "function")) :
    ∃ msg, buildMiddlewareCheck o = .error msg := by
  rcases h with ⟨ht, hty⟩ | ⟨ht, hty⟩
  · refine ⟨"Expected an object for the basic auth users", ?_⟩
    simp [buildMiddlewareCheck, ht, hty]
  · by_cases hu : typeofJs (if truthyJs o.users then o.users else JsValue.obj) = "object"
    · refine ⟨"Expected a function for the basic auth authorizer", ?_⟩
      simp only [buildMiddlewareCheck, ht, if_true, if_pos hu]
      simp [hty]
    · refine ⟨"Expected an object for the basic auth users", ?_⟩
      simp only [buildMiddlewareCheck]
      rw [if_neg hu]

/-- Witness for missing_header_behavior at a concrete configuration. -/
theorem missing_header_behavior_witness :
    reqMissing.authHeader = none ∧
    ((cfgEmptySync.allowEmptyCredentials = false →
        (authMiddleware cfgEmptySync reqMissing).outcome =
          .denied (unauthorized cfgEmptySync reqMissing) ∧
        (unauthorized cfgEmptySync reqMissing).status = 401 ∧
        (authMiddleware cfgEmptySync reqMissing).authorizerCalledWith = none) ∧
     (cfgEmptySync.allowEmptyCredentials = true →
        (authMiddleware cfgEmptySync reqMissing).reqAuth = some (none, none) ∧
        (authMiddleware cfgEmptySync reqMissing).authorizerCalledWith =
          some (none, none) ∧
        ((authMiddleware cfgEmptySync reqMissing).outcome = .allowed ↔
           authorizerApproves cfgEmptySync reqMissing none none))) :=
  ⟨rfl, missing_header_behavior cfgEmptySync reqMissing rfl⟩

/-- Witness for async_error_is_fatal at a concrete configuration. -/
theorem async_error_is_fatal_witness :
    cfgAsyncErr.authorizer = .async false asyncErrFn ∧
    ¬(reqWithCreds.authHeader = none ∧ cfgAsyncErr.allowEmptyCredentials = false) ∧
    asyncErrFn (if false then some reqWithCreds else none)
        (reqWithCreds.authHeader.map Prod.fst) (reqWithCreds.authHeader.map Prod.snd) =
      (some (.errObject "boom"), false) ∧
    (authMiddleware cfgAsyncErr reqWithCreds).outcome = .fatal (.errObject "boom") ∧
    (∀ r, (authMiddleware cfgAsyncErr reqWithCreds).outcome ≠ .denied r) := by
  have h := async_error_is_fatal cfgAsyncErr reqWithCreds false asyncErrFn
    (.errObject "boom") false rfl (by decide) rfl
  exact ⟨rfl, by decide, rfl, h.1, h.2⟩

/-- Witness for denial_challenge_header: with challenge on and realm "test"
the denial carries exactly the expected header value. -/
theorem denial_challenge_header_witness :
    (authMiddleware cfgChallenge reqWithCreds).outcome =
      .denied (unauthorized cfgChallenge reqWithCreds) ∧
    (unauthorized cfgChallenge reqWithCreds).wwwAuthenticate =
      some "Basic realm=\"test\"" := by
  have hd : (authMiddleware cfgChallenge reqWithCreds).outcome =
      .denied (unauthorized cfgChallenge reqWithCreds) := by decide
  have h := denial_challenge_header cfgChallenge reqWithCreds _ hd
  exact ⟨hd, (h.2.1 rfl).1 "test" rfl (by decide)⟩

/-- Witness for denial_body: the configured string body is sent verbatim
as text with a 401. -/
theorem denial_body_witness :
    (authMiddleware cfgChallenge reqWithCreds).outcome =
      .denied (unauthorized cfgChallenge reqWithCreds) ∧
    (unauthorized cfgChallenge reqWithCreds).status = 401 ∧
    (unauthorized cfgChallenge reqWithCreds).body = .text "Haaaaaha" := by
  have hd : (authMiddleware cfgChallenge reqWithCreds).outcome =
      .denied (unauthorized cfgChallenge reqWithCreds) := by decide
  have h := denial_body cfgChallenge reqWithCreds _ hd
  exact ⟨hd, h.1, h.2.1 "Haaaaaha" rfl⟩

/-- Witness for build_check_rejects_bad_options: a truthy string users
option fails the construction-time assertion. -/
theorem build_check_rejects_bad_options_witness :
    ((truthyJs (JsValue.str "x") = true ∧ typeofJs (JsValue.str "x") ≠ "object") ∨
     (truthyJs JsValue.undef = true ∧ typeofJs JsValue.undef ≠ "function")) ∧
    (∃ msg, buildMiddlewareCheck { users := JsValue.str "x", authorizer := JsValue.undef } =
      .error msg) :=
  ⟨Or.inl ⟨by decide, by decide⟩,
   build_check_rejects_bad_options _ (Or.inl ⟨by decide, by decide⟩)⟩

/-- Witness for null_credentials_fatal: with users Admin-like entry, empty
credentials allowed and a missing header, the run ends in a TypeError. -/
theorem null_credentials_fatal_witness :
    cfgStaticNull.authorizer = .static [([65], [66])] ∧
    cfgStaticNull.allowEmptyCredentials = true ∧
    reqMissing.authHeader = none ∧
    (authMiddleware cfgStaticNull reqMissing).outcome = .fatal .typeError := by
  have h := null_credentials_fatal cfgStaticNull reqMissing
    [([65], [66])] ([65], [66]) [] rfl rfl rfl rfl
  exact ⟨rfl, rfl, rfl, h.2.2.1⟩

end BasicAuth
